import Mathlib

/-!
Verification of the sprint & time-log subsystem of the klizo task-management
backend.  The definitions below are a shallow embedding of the route handlers
in `src/routes/sprint.js` and `src/routes/reports.js` together with the data
model of `src/models/Sprint.js` (which also contains the `IssueSchema`
declaration used by the Issue collection, lines 57-93).

Modelling conventions:
* Mongo object ids are `Nat`, timestamps are `Int` (milliseconds since epoch).
* A nullable/absent value is an `Option`.
* Each route handler becomes a pure function over a `Store` (the database
  state: the sprint, issue and project collections).  `Date.now()` readings
  are passed in as an explicit `now : Int` argument.
* A handler returns `Except ErrResp α × Store`: the response (either an error
  response carrying the HTTP status code and message, or the success payload)
  together with the resulting database state.  Every early-return error path
  in the source occurs before any `save()` call, so on an error the store is
  returned unchanged, exactly as in the source.
* Mongoose runs schemas in strict mode (the default; the app never disables
  it), so `Document#save()` persists only the paths declared in the schema.
  This matters for the `time-log/stop` handler, which assigns to
  `issue.totalTimeSpent` although `IssueSchema` declares no such path; the
  mongoose document is modelled as the schema fields plus the list of plain
  (non-schema) properties assigned to it, and saving persists only the schema
  fields.
-/

/-- Mongo ObjectId, modelled as a natural number. -/
abbrev ObjId := Nat

/-- An error response: HTTP status code and message, as produced by the
`res.status(...).json({message: ...})` calls of the handlers. -/
structure ErrResp where
  status : Nat
  message : String
deriving DecidableEq, Repr

/-- Sprint lifecycle status, from `sprintSchema` (`src/models/Sprint.js`):
`enum: ['planned', 'active', 'completed']`, default `planned`. -/
inductive SprintStatus where
  | planned
  | active
  | completed
deriving DecidableEq, Repr

/-- Issue status, from `IssueSchema` (`src/models/Sprint.js` lines 57-93):
`enum: ['backlog', 'to_do', 'in_progress', 'in_review', 'in_testing', 'done']`. -/
inductive IssueStatus where
  | backlog
  | to_do
  | in_progress
  | in_review
  | in_testing
  | done
deriving DecidableEq, Repr

/-- An embedded time-log record of a sprint, from the `timeLogs` array of
`sprintSchema`: `assigneeId`, `issueId`, `startTime` (required),
`endTime` (optional, absent while the log is running), `timeSpent`
(defaults to 0). -/
structure TimeLog where
  assigneeId : ObjId
  issueId : ObjId
  startTime : Int
  endTime : Option Int
  timeSpent : Int
deriving DecidableEq, Repr

/-- A sprint document, from `sprintSchema` (`src/models/Sprint.js`).
The `createdAt` timestamp is omitted: no handler modelled here reads or
writes it. -/
structure SprintDoc where
  id : ObjId
  projectId : ObjId
  name : String
  startDate : Int
  endDate : Int
  status : SprintStatus
  issues : List ObjId
  timeLogs : List TimeLog
  updatedAt : Int
deriving DecidableEq, Repr

/-- An issue document, restricted to the `IssueSchema` paths
(`src/models/Sprint.js` lines 57-93) that the sprint/report handlers touch:
`projectId`, `status`, `assigneeId`, `sprintId` (optional), `timeSpent`
(default 0), `isDeleted`.  Note that the schema declares a `timeSpent`
path but no `totalTimeSpent` path. -/
structure IssueDoc where
  id : ObjId
  projectId : ObjId
  status : IssueStatus
  assigneeId : ObjId
  sprintId : Option ObjId
  timeSpent : Int
  isDeleted : Bool
deriving DecidableEq, Repr

/-- A project document, restricted to the fields the sprint handlers read. -/
structure ProjectDoc where
  id : ObjId
  name : String
  isDeleted : Bool
deriving DecidableEq, Repr

/-- The database state: the three collections the sprint & report handlers
touch. -/
structure Store where
  sprints : List SprintDoc
  issues : List IssueDoc
  projects : List ProjectDoc
deriving DecidableEq, Repr

/-- `Sprint.findById(sprintId)`. -/
def sprintFind (store : Store) (sid : ObjId) : Option SprintDoc :=
  store.sprints.find? (fun s => s.id == sid)

/-- `Issue.findById(issueId)` / `Issue.findOne({_id: issueId})`. -/
def issueFind (store : Store) (iid : ObjId) : Option IssueDoc :=
  store.issues.find? (fun i => i.id == iid)

/-- `Project.findById(projectId)`. -/
def projectFind (store : Store) (pid : ObjId) : Option ProjectDoc :=
  store.projects.find? (fun p => p.id == pid)

/-- `sprint.save()` on an existing document: replace the stored sprint with
the same `_id` by the mutated one. -/
def saveSprint (store : Store) (s : SprintDoc) : Store :=
  { store with sprints := store.sprints.map (fun t => if t.id == s.id then s else t) }

/-- `issue.save()` on an existing document (schema paths only; see
`mongooseIssueSave` for the strict-mode treatment of non-schema paths). -/
def saveIssue (store : Store) (i : IssueDoc) : Store :=
  { store with issues := store.issues.map (fun t => if t.id == i.id then i else t) }

/-- A loaded mongoose Issue document: the schema-declared fields, plus the
plain JavaScript properties that handler code assigned to paths not declared
in `IssueSchema`.  Such properties live on the document object in memory but
are not persisted by `save()` (strict mode, the mongoose default). -/
structure MongooseIssue where
  fields : IssueDoc
  extraProps : List (String × Int)
deriving DecidableEq, Repr

/-- Load an issue as a mongoose document.  A fresh load carries no non-schema
properties: they were never persisted. -/
def mongooseIssueFind (store : Store) (iid : ObjId) : Option MongooseIssue :=
  (issueFind store iid).map (fun i => ⟨i, []⟩)

/-- Read a non-schema property of a loaded document (`undefined`, i.e. `none`,
unless this very document object was assigned one). -/
def mongooseGetExtra (d : MongooseIssue) (path : String) : Option Int :=
  (d.extraProps.find? (fun q => q.1 == path)).map (fun q => q.2)

/-- Plain JavaScript assignment `doc.path = v` for a path not declared in
`IssueSchema`. -/
def mongooseSetExtra (d : MongooseIssue) (path : String) (v : Int) : MongooseIssue :=
  { d with extraProps := (path, v) :: d.extraProps.filter (fun q => !(q.1 == path)) }

/-- `issue.save()` on a mongoose document: strict mode persists only the
schema-declared paths; `extraProps` are dropped. -/
def mongooseIssueSave (store : Store) (d : MongooseIssue) : Store :=
  saveIssue store d.fields

/-- Replace the first element satisfying `p` by its image under `f` (JavaScript
`array.find(p)` followed by mutation of the returned element). -/
def updateFirst (p : α → Bool) (f : α → α) : List α → List α
  | [] => []
  | x :: xs => if p x then f x :: xs else x :: updateFirst p f xs

/-- `validateDates` (`src/utils/dateValidation.js`): error when the start
date is after the end date (the second clause of the source, "same day and
start after end", is subsumed by the first and never fires). -/
def validateDates (startDate endDate : Int) : Option String :=
  if endDate < startDate then some "Start date cannot be greater than end date" else none

/-- `POST /sprints` (`src/routes/sprint.js` lines 58-112): validate dates,
reject a duplicate name in the same project, then reject a duplicate name in
any project, then require a live project, then create the sprint (status
defaults to `planned`, `issues` and `timeLogs` empty).  `newId` is the
ObjectId minted for the new document and `now` the creation timestamp. -/
def createSprint (store : Store) (projectId : ObjId) (name : String)
    (startDate endDate : Int) (newId : ObjId) (now : Int) :
    Except ErrResp SprintDoc × Store :=
  match validateDates startDate endDate with
  | some msg => (.error ⟨400, msg⟩, store)
  | none =>
    match store.sprints.find? (fun s => s.name == name && s.projectId == projectId) with
    | some _ => (.error ⟨409, "Sprint name already exists in this project"⟩, store)
    | none =>
      match store.sprints.find? (fun s => s.name == name) with
      | some _ => (.error ⟨409, "Sprint already exists"⟩, store)
      | none =>
        match projectFind store projectId with
        | none => (.error ⟨404, "Project not exists"⟩, store)
        | some project =>
          if project.isDeleted then (.error ⟨404, "Project not exists"⟩, store)
          else
            let sprint : SprintDoc :=
              { id := newId, projectId := projectId, name := name,
                startDate := startDate, endDate := endDate,
                status := .planned, issues := [], timeLogs := [], updatedAt := now }
            (.ok sprint, { store with sprints := store.sprints ++ [sprint] })

/-- `PUT /sprints/add-to-sprint/:issueId` (`src/routes/sprint.js` lines
167-227): find sprint and live issue, reject when the issue is already in
this sprint's `issues`, reject when another *active* sprint lists it, else
push the issue id, set the issue's status to `to_do` and save both.  (The
handler does not touch `issue.sprintId`.) -/
def addToSprint (store : Store) (issueId sprintId : ObjId) :
    Except ErrResp SprintDoc × Store :=
  match sprintFind store sprintId with
  | none => (.error ⟨404, "Sprint not found"⟩, store)
  | some sprint =>
    match issueFind store issueId with
    | none => (.error ⟨404, "Issue not found"⟩, store)
    | some issue =>
      if issue.isDeleted then (.error ⟨404, "Issue not found"⟩, store)
      else if sprint.issues.contains issue.id then
        (.error ⟨409, "This Issue already added to this sprint"⟩, store)
      else
        match store.sprints.find?
          (fun t => !(t.id == sprintId) && decide (t.status = .active)
                     && t.issues.contains issue.id) with
        | some _ => (.error ⟨409, "Issue is already part of another active sprint"⟩, store)
        | none =>
          let sprint' := { sprint with issues := sprint.issues ++ [issue.id] }
          let issue' := { issue with status := .to_do }
          (.ok sprint', saveIssue (saveSprint store sprint') issue')

/-- `PUT /sprints/start-sprint/:sprintId` (`src/routes/sprint.js` lines
285-319): 404 when the sprint is missing or its status is not `planned`;
otherwise set the sprint to `active` and `updateMany` every issue listed in
`sprint.issues` to status `to_do`. -/
def startSprint (store : Store) (sprintId : ObjId) :
    Except ErrResp SprintDoc × Store :=
  match sprintFind store sprintId with
  | none => (.error ⟨404, "Sprint not found or already started"⟩, store)
  | some sprint =>
    if sprint.status = .planned then
      let sprint' := { sprint with status := .active }
      let store1 := saveSprint store sprint'
      let store2 := { store1 with issues := store1.issues.map (fun i =>
        if sprint.issues.contains i.id then { i with status := .to_do } else i) }
      (.ok sprint', store2)
    else (.error ⟨404, "Sprint not found or already started"⟩, store)

/-- The `$cond` status rewrite of the end-sprint `updateMany`
(`src/routes/sprint.js` lines 428-449): `in_progress ↦ done`,
`to_do ↦ backlog`, anything else `↦ done`. -/
def endStatusMap (st : IssueStatus) : IssueStatus :=
  if st = .in_progress then .done
  else if st = .to_do then .backlog
  else .done

/-- `POST /sprints/end-sprint/:sprintId` (`src/routes/sprint.js` lines
391-457): 404 when missing; 400 when already completed; 400 when some
embedded time log has no `endTime`; otherwise mark the sprint `completed`,
stamp `updatedAt`, save it, and rewrite the status of every issue listed in
`sprint.issues` by `endStatusMap`. -/
def endSprint (store : Store) (sprintId : ObjId) (now : Int) :
    Except ErrResp Unit × Store :=
  match sprintFind store sprintId with
  | none => (.error ⟨404, "Sprint not found"⟩, store)
  | some sprint =>
    if sprint.status = .completed then
      (.error ⟨400, "Sprint is already completed"⟩, store)
    else if sprint.timeLogs.any (fun log => log.endTime.isNone) then
      (.error ⟨400, "Cannot end sprint as there are unfinished time logs. Please complete all tasks."⟩, store)
    else
      let sprint' := { sprint with status := .completed, updatedAt := now }
      let store1 := saveSprint store sprint'
      let store2 := { store1 with issues := store1.issues.map (fun i =>
        if sprint.issues.contains i.id then { i with status := endStatusMap i.status } else i) }
      (.ok (), store2)

/-- The predicate locating a running log of an assignee, used by both
`time-log/start` (`log.assigneeId.equals(assigneeId) && !log.endTime`) and
`time-log/stop` (`log.assigneeId.toString() === assigneeId && !log.endTime`). -/
def runningFor (assigneeId : ObjId) (log : TimeLog) : Bool :=
  log.assigneeId == assigneeId && log.endTime.isNone

/-- `POST /sprints/:sprintId/time-log/start` (`src/routes/sprint.js` lines
921-994): find sprint (404), require it active (400), find a live issue
(404), resolve the assignee against the employee directory (modelled by the
`userFound` flag; 404 when it does not resolve), require the issue to be
assigned to the supplied assignee (400), reject when the assignee already has
a time log with no `endTime` anywhere in the sprint (400); otherwise push
`{issueId, assigneeId, startTime: now}` (so `endTime` is absent and
`timeSpent` takes its schema default 0), save the sprint, set the issue's
status to `in_progress` and save it. -/
def startTimeLog (store : Store) (sprintId issueId assigneeId : ObjId)
    (userFound : Bool) (now : Int) : Except ErrResp Unit × Store :=
  match sprintFind store sprintId with
  | none => (.error ⟨404, "Sprint not found"⟩, store)
  | some sprint =>
    if sprint.status ≠ .active then
      (.error ⟨400, "Sprint is not active"⟩, store)
    else
      match issueFind store issueId with
      | none => (.error ⟨404, "Issue not exists"⟩, store)
      | some issue =>
        if issue.isDeleted then (.error ⟨404, "Issue not exists"⟩, store)
        else if !userFound then
          (.error ⟨404, "assignee not exists in attendance-db"⟩, store)
        else if !(issue.assigneeId == assigneeId) then
          (.error ⟨400, "Assignee ID does not match the assigned user for this issue"⟩, store)
        else
          match sprint.timeLogs.find? (runningFor assigneeId) with
          | some _ =>
            (.error ⟨400, "User already has an active time log on another issue"⟩, store)
          | none =>
            let sprint' := { sprint with timeLogs := sprint.timeLogs ++
              [{ assigneeId := assigneeId, issueId := issueId,
                 startTime := now, endTime := none, timeSpent := 0 }] }
            let issue' := { issue with status := .in_progress }
            (.ok (), saveIssue (saveSprint store sprint') issue')

/-- Request body of `POST /sprints/time-log/:sprintId`: the handler pushes
`{assigneeId, issueId, timeSpent, startTime, endTime}` straight from the
body; `timeSpent` defaults to 0 and `endTime` may be absent. -/
structure TimeLogBody where
  assigneeId : ObjId
  issueId : ObjId
  timeSpent : Option Int
  startTime : Int
  endTime : Option Int
deriving DecidableEq, Repr

/-- `POST /sprints/time-log/:sprintId` (`src/routes/sprint.js` lines
750-781): find sprint (404), find issue (404; this handler checks existence
only, not `isDeleted`), then push the body's time log onto
`sprint.timeLogs` with no further checks and save. -/
def addTimeLog (store : Store) (sprintId : ObjId) (body : TimeLogBody) :
    Except ErrResp TimeLog × Store :=
  match sprintFind store sprintId with
  | none => (.error ⟨404, "Sprint not found"⟩, store)
  | some sprint =>
    match issueFind store body.issueId with
    | none => (.error ⟨404, "Issue not found"⟩, store)
    | some _ =>
      let timeLog : TimeLog :=
        { assigneeId := body.assigneeId, issueId := body.issueId,
          startTime := body.startTime, endTime := body.endTime,
          timeSpent := body.timeSpent.getD 0 }
      let sprint' := { sprint with timeLogs := sprint.timeLogs ++ [timeLog] }
      (.ok timeLog, saveSprint store sprint')

/-- The mutation `time-log/stop` performs on `sprint.timeLogs`: the first
running log of the assignee gets `endTime = now` and
`timeSpent = now - startTime`. -/
def closeFirstRunning (assigneeId : ObjId) (now : Int) (logs : List TimeLog) : List TimeLog :=
  updateFirst (runningFor assigneeId)
    (fun l => { l with endTime := some now, timeSpent := now - l.startTime })
    logs

/-- `POST /sprints/time-log/stop` (`src/routes/sprint.js` lines 502-552):
find sprint (404); scan `sprint.timeLogs` for the first log of the assignee
with no `endTime` (404 "No active time-log found" when there is none);
set that log's `endTime` to `now` and its `timeSpent` to `now - startTime`;
load the referenced issue and, when it exists, assign
`issue.totalTimeSpent = (issue.totalTimeSpent || 0) + timeSpent` — a path
`IssueSchema` does not declare, so `issue.save()` (strict mode) persists the
schema fields unchanged; finally save the sprint and return the elapsed
milliseconds as `timeSpentInMs`. -/
def stopTimeLog (store : Store) (sprintId assigneeId : ObjId) (now : Int) :
    Except ErrResp Int × Store :=
  match sprintFind store sprintId with
  | none => (.error ⟨404, "Sprint not found"⟩, store)
  | some sprint =>
    match sprint.timeLogs.find? (runningFor assigneeId) with
    | none => (.error ⟨404, "No active time-log found"⟩, store)
    | some log =>
      let timeSpent := now - log.startTime
      let sprint' := { sprint with timeLogs := closeFirstRunning assigneeId now sprint.timeLogs }
      let store1 :=
        match mongooseIssueFind store log.issueId with
        | none => store
        | some issue =>
          let issue' := mongooseSetExtra issue "totalTimeSpent"
            ((mongooseGetExtra issue "totalTimeSpent").getD 0 + timeSpent)
          mongooseIssueSave store issue'
      (.ok timeSpent, saveSprint store1 sprint')

/-- Success payload of `GET /sprints/:sprintId/total-time`. -/
structure TotalTimePayload where
  totalTimeMs : Int
  actualSprintTime : String
deriving DecidableEq, Repr

/-- `GET /sprints/:sprintId/total-time` (`src/routes/sprint.js` lines
1060-1107): 404 when the sprint is missing, 404 when it has no time logs at
all; otherwise sum `endTime - startTime` over the logs having both
timestamps (a stored `startTime` is always a valid required date, so only
`endTime` can be absent), and render `"H hours M minutes"` with
`H = Math.floor(total / 3600000)` and
`M = Math.floor((total % 3600000) / 60000)` (JavaScript `%` truncates,
`Math.floor` floors).  The handler reads the store and saves nothing. -/
def totalTimeQuery (store : Store) (sprintId : ObjId) :
    Except ErrResp TotalTimePayload :=
  match sprintFind store sprintId with
  | none => .error ⟨404, "Sprint not found"⟩
  | some sprint =>
    if sprint.timeLogs.length = 0 then
      .error ⟨404, "No time logs found for this sprint"⟩
    else
      let totalTime := sprint.timeLogs.foldl (fun acc log =>
        match log.endTime with
        | some e => acc + (e - log.startTime)
        | none => acc) 0
      let hours := totalTime.fdiv (1000 * 60 * 60)
      let minutes := (totalTime.tmod (1000 * 60 * 60)).fdiv (1000 * 60)
      .ok ⟨totalTime, s!"{hours} hours {minutes} minutes"⟩

/-- One element of the velocity report of `GET /reports/velocity`. -/
structure VelocityEntry where
  sprintName : String
  plannedWork : Nat
  completedWork : Nat
deriving DecidableEq, Repr

/-- The ObjectId-valued paths an issue document stores, by path name.  Stored
documents carry exactly the `IssueSchema` paths (strict mode), so a query on
any other name — in particular `sprint`, which the schema does not declare
(the sprint link is `sprintId`) — matches no document. -/
def issueQueryField (i : IssueDoc) : String → Option ObjId
  | "projectId" => some i.projectId
  | "assigneeId" => some i.assigneeId
  | "sprintId" => i.sprintId
  | _ => none

/-- `Issue.find({field: v})` for an ObjectId-valued equality filter: a
document matches when it stores `v` at that path. -/
def issueFindByEq (db : List IssueDoc) (field : String) (v : ObjId) : List IssueDoc :=
  db.filter (fun i => issueQueryField i field == some v)

/-- The per-sprint computation of the `GET /reports/velocity` callback
(`src/routes/reports.js` lines 32-38): `Issue.find({ sprint: sprint._id })`,
`plannedWork` = number of results, `completedWork` = number of results with
status `done`.  (The handler maps this callback asynchronously over the
sprints and responds without awaiting, so the HTTP payload serializes the
pending promises as empty objects; this definition models the computation
each promise performs.) -/
def velocityEntry (store : Store) (sprint : SprintDoc) : VelocityEntry :=
  let issues := issueFindByEq store.issues "sprint" sprint.id
  let completedIssues := issues.filter (fun i => decide (i.status = .done))
  { sprintName := sprint.name,
    plannedWork := issues.length,
    completedWork := completedIssues.length }

/-- `GET /reports/velocity` over all sprints of a project (no
`numberOfSprints` limit supplied). -/
def velocityData (store : Store) (projectId : ObjId) : List VelocityEntry :=
  (store.sprints.filter (fun s => s.projectId == projectId)).map (velocityEntry store)

/-- The time logs of a sprint that are still running (`endTime` absent). -/
def runningLogs (s : SprintDoc) : List TimeLog :=
  s.timeLogs.filter (fun log => log.endTime.isNone)

/-- The spec invariant on a sprint: no two running time logs belong to the
same assignee, i.e. each assignee has at most one log with `endTime = null`. -/
def atMostOneRunningPerAssignee (s : SprintDoc) : Prop :=
  (runningLogs s).Pairwise (fun l1 l2 => l1.assigneeId ≠ l2.assigneeId)

instance (s : SprintDoc) : Decidable (atMostOneRunningPerAssignee s) :=
  List.instDecidablePairwise _

/-- The invariant over the whole store: every stored sprint satisfies
`atMostOneRunningPerAssignee`. -/
def storeTimeLogInvariant (store : Store) : Prop :=
  ∀ s ∈ store.sprints, atMostOneRunningPerAssignee s

instance (store : Store) : Decidable (storeTimeLogInvariant store) :=
  List.decidableBAll _ _

/-- Whether a handler outcome is a success. -/
def exceptOk : Except ErrResp α → Bool
  | .ok _ => true
  | .error _ => false

/-! ### General helper lemmas -/

/-- Replacing the element found by an id lookup keeps it findable: after the
map performed by `saveSprint`/`saveIssue`, looking the id up yields the
replacement, provided the replacement keeps the id. -/
theorem find?_map_replace {α : Type} (f : α → Nat) (k : Nat) (x x' : α) (hid : f x' = f x) :
    ∀ l : List α, l.find? (fun t => f t == k) = some x →
      (l.map (fun t => if f t == f x then x' else t)).find? (fun t => f t == k) = some x'
  | [], h => by simp at h
  | a :: l, h => by
    by_cases ha : (f a == k) = true
    · rw [List.find?_cons_of_pos l ha] at h
      have hax : a = x := by injection h
      subst hax
      simp only [List.map_cons, beq_self_eq_true, if_pos]
      have hx : (fun t => f t == k) x' = true := by
        show (f x' == k) = true
        rw [hid]; exact ha
      exact List.find?_cons_of_pos _ hx
    · rw [List.find?_cons_of_neg l ha] at h
      have hxk : (f x == k) = true := by
        have := List.find?_some h
        simpa using this
      have hne : (f a == f x) = false := by
        rw [beq_eq_false_iff_ne]
        intro hcontra
        rw [beq_iff_eq] at hxk
        rw [hcontra, hxk] at ha
        simp at ha
      simp only [List.map_cons, hne, Bool.false_eq_true, if_neg, not_false_iff]
      rw [List.find?_cons_of_neg (l.map fun t => if f t == f x then x' else t) ha]
      exact find?_map_replace f k x x' hid l h

/-- The summation loop of `total-time` as a closed formula. -/
theorem totalTime_foldl_eq (logs : List TimeLog) (acc : Int) :
    logs.foldl (fun acc log =>
      match log.endTime with
      | some e => acc + (e - log.startTime)
      | none => acc) acc
      = acc + (logs.filterMap (fun l => l.endTime.map (fun e => e - l.startTime))).sum := by
  induction logs generalizing acc with
  | nil => simp
  | cons l ls ih =>
    cases he : l.endTime with
    | none =>
      simp only [List.foldl_cons, he, List.filterMap_cons, Option.map_none']
      exact ih acc
    | some e =>
      simp only [List.foldl_cons, he, List.filterMap_cons, Option.map_some', List.sum_cons]
      rw [ih]
      ring

/-- Closing the first matching element can only shrink the set of elements
satisfying `q`, as a sublist. -/
theorem filter_updateFirst_sublist (p : α → Bool) (f : α → α) (q : α → Bool)
    (hf : ∀ x, p x = true → q (f x) = false) :
    ∀ xs : List α, ((updateFirst p f xs).filter q).Sublist (xs.filter q)
  | [] => by simp [updateFirst]
  | x :: xs => by
    by_cases hp : p x = true
    · simp only [updateFirst, hp, if_pos]
      rw [List.filter_cons, List.filter_cons]
      rw [hf x hp]
      simp only [Bool.false_eq_true, if_neg, not_false_iff]
      split
      · exact List.sublist_cons_self x (xs.filter q)
      · exact List.Sublist.refl _
    · simp only [updateFirst, hp, if_neg, Bool.false_eq_true, not_false_iff]
      rw [List.filter_cons, List.filter_cons]
      split
      · exact List.Sublist.cons₂ x (filter_updateFirst_sublist p f q hf xs)
      · exact filter_updateFirst_sublist p f q hf xs

/-- `sprintFind` after `saveSprint` of a sprint found there. -/
theorem sprintFind_saveSprint (store : Store) (sid : ObjId) (s s' : SprintDoc)
    (h : sprintFind store sid = some s) (hid : s'.id = s.id) :
    sprintFind (saveSprint store s') sid = some s' := by
  unfold sprintFind saveSprint at *
  simp only []
  have := find?_map_replace (fun t : SprintDoc => t.id) sid s s' hid store.sprints h
  simpa [hid] using this

/-- `issueFind` after `saveIssue` of an issue found there. -/
theorem issueFind_saveIssue (store : Store) (iid : ObjId) (i i' : IssueDoc)
    (h : issueFind store iid = some i) (hid : i'.id = i.id) :
    issueFind (saveIssue store i') iid = some i' := by
  unfold issueFind saveIssue at *
  simp only []
  have := find?_map_replace (fun t : IssueDoc => t.id) iid i i' hid store.issues h
  simpa [hid] using this

/-! ### Invariant-preservation lemmas for the time-log operations -/

/-- `saveIssue` does not touch the sprint collection, so the time-log
invariant is unaffected. -/
theorem storeInv_saveIssue (store : Store) (i : IssueDoc)
    (h : storeTimeLogInvariant store) : storeTimeLogInvariant (saveIssue store i) := h

/-- `saveSprint` preserves the store invariant when the saved sprint itself
satisfies the per-sprint invariant. -/
theorem storeInv_saveSprint (store : Store) (s' : SprintDoc)
    (hinv : storeTimeLogInvariant store) (hs' : atMostOneRunningPerAssignee s') :
    storeTimeLogInvariant (saveSprint store s') := by
  intro t ht
  rcases List.mem_map.1 ht with ⟨u, hu, rfl⟩
  split
  · exact hs'
  · exact hinv u hu

/-- Appending a fresh running log preserves the per-sprint invariant when the
assignee has no running log yet (the check `time-log/start` performs). -/
theorem atMostOne_append_fresh (s : SprintDoc) (newLog : TimeLog)
    (hinv : atMostOneRunningPerAssignee s)
    (hnone : s.timeLogs.find? (runningFor newLog.assigneeId) = none) :
    atMostOneRunningPerAssignee { s with timeLogs := s.timeLogs ++ [newLog] } := by
  unfold atMostOneRunningPerAssignee runningLogs at *
  simp only [List.filter_append]
  rw [List.pairwise_append]
  refine ⟨hinv, ?_, ?_⟩
  · cases h : newLog.endTime.isNone <;> simp [List.filter, h]
  · intro x hx y hy
    rw [List.mem_filter] at hx
    rcases hx with ⟨hxmem, hxrun⟩
    have hymem : y = newLog := by
      rcases List.mem_filter.1 hy with ⟨hy1, _⟩
      simpa using hy1
    subst hymem
    have hnp := List.find?_eq_none.mp hnone x hxmem
    intro heq
    exact hnp (by simp [runningFor, heq, hxrun])

/-- Closing the assignee's first running log (the mutation of
`time-log/stop`) preserves the per-sprint invariant. -/
theorem atMostOne_close (s : SprintDoc) (aid : ObjId) (now : Int)
    (hinv : atMostOneRunningPerAssignee s) :
    atMostOneRunningPerAssignee { s with timeLogs := closeFirstRunning aid now s.timeLogs } := by
  unfold atMostOneRunningPerAssignee runningLogs closeFirstRunning at *
  exact List.Pairwise.sublist
    (filter_updateFirst_sublist _ _ _ (fun x _ => rfl) s.timeLogs) hinv

/-- C1 (amended).  The `time-log/start` and `time-log/stop` handlers preserve
the invariant that each assignee has at most one running time log per sprint,
and `time-log/start` never succeeds while the assignee already has a running
log in the sprint.  (As the counterexample shows, the claim's original
universal form is false: the raw `POST /sprints/time-log/:sprintId` handler
appends the request body without this check.) -/
theorem timeLog_invariant_start_stop
    (store : Store) (sid issueId assigneeId : ObjId) (userFound : Bool) (now : Int)
    (hinv : storeTimeLogInvariant store) :
    storeTimeLogInvariant (startTimeLog store sid issueId assigneeId userFound now).2
    ∧ storeTimeLogInvariant (stopTimeLog store sid assigneeId now).2
    ∧ (∀ s, sprintFind store sid = some s →
        s.timeLogs.any (runningFor assigneeId) = true →
        exceptOk (startTimeLog store sid issueId assigneeId userFound now).1 = false) := by
  refine ⟨?_, ?_, ?_⟩
  · unfold startTimeLog
    cases hf : sprintFind store sid with
    | none => exact hinv
    | some sprint =>
      simp only []
      split
      · exact hinv
      · cases hi : issueFind store issueId with
        | none => exact hinv
        | some issue =>
          simp only []
          split
          · exact hinv
          · split
            · exact hinv
            · split
              · exact hinv
              · cases hl : sprint.timeLogs.find? (runningFor assigneeId) with
                | some _ => exact hinv
                | none =>
                  simp only []
                  apply storeInv_saveIssue
                  apply storeInv_saveSprint _ _ hinv
                  exact atMostOne_append_fresh sprint _
                    (hinv sprint (List.mem_of_find?_eq_some hf)) hl
  · unfold stopTimeLog
    cases hf : sprintFind store sid with
    | none => exact hinv
    | some sprint =>
      simp only []
      cases hl : sprint.timeLogs.find? (runningFor assigneeId) with
      | none => exact hinv
      | some log =>
        simp only []
        cases hm : mongooseIssueFind store log.issueId with
        | none =>
          simp only []
          exact storeInv_saveSprint _ _ hinv
            (atMostOne_close sprint assigneeId now (hinv sprint (List.mem_of_find?_eq_some hf)))
        | some issue =>
          simp only []
          apply storeInv_saveSprint _ _ (storeInv_saveIssue _ _ hinv)
          exact atMostOne_close sprint assigneeId now (hinv sprint (List.mem_of_find?_eq_some hf))
  · intro s hs hany
    unfold startTimeLog
    rw [hs]
    simp only []
    split
    · rfl
    · cases hi : issueFind store issueId with
      | none => rfl
      | some issue =>
        simp only []
        split
        · rfl
        · split
          · rfl
          · split
            · rfl
            · cases hl : s.timeLogs.find? (runningFor assigneeId) with
              | some _ => rfl
              | none =>
                exfalso
                rcases List.any_eq_true.mp hany with ⟨x, hxmem, hxp⟩
                exact (List.find?_eq_none.mp hl x hxmem) hxp

/-- A sprint with one running log for assignee 7 on issue 5. -/
def c1Sprint : SprintDoc :=
  { id := 1, projectId := 1, name := "S1", startDate := 0, endDate := 10,
    status := .active, issues := [5], timeLogs := [⟨7, 5, 100, none, 0⟩], updatedAt := 0 }

/-- Issue 5, assigned to employee 7, currently in progress. -/
def c1Issue : IssueDoc :=
  { id := 5, projectId := 1, status := .in_progress, assigneeId := 7,
    sprintId := some 1, timeSpent := 0, isDeleted := false }

/-- A store whose only sprint already has a running log for assignee 7. -/
def c1Store : Store :=
  { sprints := [c1Sprint], issues := [c1Issue], projects := [⟨1, "P1", false⟩] }

/-- C1 counterexample: the raw add-time-log handler
(`POST /sprints/time-log/:sprintId`) appends a body-supplied log with no
`endTime` for assignee 7, who already has a running log in the sprint, and
succeeds — so the one-running-log-per-assignee invariant is not preserved by
every operation that appends to `sprint.timeLogs`. -/
theorem timeLog_invariant_addTimeLog_counterexample :
    storeTimeLogInvariant c1Store
    ∧ exceptOk (addTimeLog c1Store 1 ⟨7, 5, none, 10, none⟩).1 = true
    ∧ ¬ storeTimeLogInvariant (addTimeLog c1Store 1 ⟨7, 5, none, 10, none⟩).2 := by
  decide

/-- Witness for `timeLog_invariant_start_stop` at the concrete store
`c1Store`: stopping preserves the invariant, and a second start for
assignee 7 fails. -/
theorem timeLog_invariant_start_stop_witness :
    storeTimeLogInvariant (stopTimeLog c1Store 1 7 250).2
    ∧ exceptOk (startTimeLog c1Store 1 5 7 true 250).1 = false := by
  have h1 := timeLog_invariant_start_stop c1Store 1 5 7 true 250 (by decide)
  exact ⟨h1.2.1, h1.2.2 c1Sprint rfl (by decide)⟩

/-- C2.  Whenever `end-sprint` succeeds, the sprint's status becomes
`completed` (with `updatedAt` stamped), and every stored issue listed in
`sprint.issues` has its status rewritten by the total map
`in_progress ↦ done`, `to_do ↦ backlog`, anything else `↦ done`; consequently
no issue of the sprint is left with status `to_do` or `in_progress`. -/
theorem endSprint_success_spec (store : Store) (sid : ObjId) (now : Int)
    (h : (endSprint store sid now).1 = .ok ()) :
    ∃ s, sprintFind store sid = some s ∧
      sprintFind (endSprint store sid now).2 sid
        = some { s with status := .completed, updatedAt := now } ∧
      (endSprint store sid now).2.issues = store.issues.map (fun i =>
        if s.issues.contains i.id then
          { i with status := if i.status = .in_progress then .done
                             else if i.status = .to_do then .backlog else .done }
        else i) ∧
      (∀ i ∈ (endSprint store sid now).2.issues, s.issues.contains i.id →
        i.status ≠ .to_do ∧ i.status ≠ .in_progress) := by
  cases hf : sprintFind store sid with
  | none =>
    simp only [endSprint, hf] at h
    exact Except.noConfusion h
  | some sprint =>
    by_cases hc : sprint.status = .completed
    · simp only [endSprint, hf, if_pos hc] at h
      exact Except.noConfusion h
    · by_cases hrun : sprint.timeLogs.any (fun log => log.endTime.isNone) = true
      · simp only [endSprint, hf, if_neg hc, if_pos hrun] at h
        exact Except.noConfusion h
      · simp only [endSprint, hf, if_neg hc, if_neg hrun]
        refine ⟨sprint, rfl, ?_, rfl, ?_⟩
        · exact sprintFind_saveSprint store sid sprint _ hf rfl
        · intro i hi hcont
          rcases List.mem_map.1 hi with ⟨j, hjmem, rfl⟩
          by_cases hcj : sprint.issues.contains j.id = true
          · simp only [if_pos hcj]
            cases hj : j.status <;> simp [endStatusMap, hj]
          · simp only [if_neg hcj] at hcont
            exact absurd hcont hcj

/-- An active sprint with two issues (one `in_progress`, one `to_do`) and
only finished time logs, so that `end-sprint` succeeds. -/
def c2Sprint : SprintDoc :=
  { id := 1, projectId := 1, name := "S2", startDate := 0, endDate := 10,
    status := .active, issues := [5, 6], timeLogs := [⟨7, 5, 100, some 200, 100⟩], updatedAt := 0 }

/-- Store for the `end-sprint` success witness. -/
def c2Store : Store :=
  { sprints := [c2Sprint],
    issues := [⟨5, 1, .in_progress, 7, some 1, 0, false⟩, ⟨6, 1, .to_do, 8, some 1, 0, false⟩],
    projects := [⟨1, "P1", false⟩] }

/-- Witness for `endSprint_success_spec` at the concrete store `c2Store`. -/
theorem endSprint_success_witness :
    (endSprint c2Store 1 99).1 = Except.ok () ∧
    sprintFind (endSprint c2Store 1 99).2 1
      = some { c2Sprint with status := .completed, updatedAt := 99 } := by
  have h := endSprint_success_spec c2Store 1 99 rfl
  rcases h with ⟨s, hs, hfind, _, _⟩
  have h2 : some c2Sprint = some s := hs
  injection h2 with h3
  subst h3
  exact ⟨rfl, hfind⟩

/-- C3.  For an existing, not-yet-completed sprint with at least one running
time log, `end-sprint` fails with the 400 "unfinished time logs" error —
regardless of whether the sprint is `planned` or `active` — and the store is
returned unchanged (no sprint or issue status is touched). -/
theorem endSprint_blocked_spec (store : Store) (sid : ObjId) (now : Int) (s : SprintDoc)
    (hf : sprintFind store sid = some s)
    (hc : s.status ≠ .completed)
    (hrun : s.timeLogs.any (fun log => log.endTime.isNone) = true) :
    endSprint store sid now =
      (.error ⟨400, "Cannot end sprint as there are unfinished time logs. Please complete all tasks."⟩,
       store) := by
  simp only [endSprint, hf, if_neg hc, if_pos hrun]

/-- An active sprint with one running time log. -/
def c3Sprint : SprintDoc :=
  { id := 1, projectId := 1, name := "S3", startDate := 0, endDate := 10,
    status := .active, issues := [5], timeLogs := [⟨7, 5, 100, none, 0⟩], updatedAt := 0 }

/-- Store for the blocked `end-sprint` witness. -/
def c3Store : Store :=
  { sprints := [c3Sprint], issues := [⟨5, 1, .in_progress, 7, some 1, 0, false⟩],
    projects := [⟨1, "P1", false⟩] }

/-- Witness for `endSprint_blocked_spec` at the concrete store `c3Store`. -/
theorem endSprint_blocked_witness :
    endSprint c3Store 1 50 =
      (.error ⟨400, "Cannot end sprint as there are unfinished time logs. Please complete all tasks."⟩,
       c3Store) :=
  endSprint_blocked_spec c3Store 1 50 c3Sprint rfl (by decide) (by decide)

/-- C5.  `start-sprint` fails with the 404 not-found/invalid-state error
whenever the sprint is missing or its status is not `planned` (the store is
untouched); when the sprint is `planned` it succeeds, sets the sprint
`active`, and forces the status of every stored issue listed in
`sprint.issues` to `to_do`, overwriting whatever status each issue had. -/
theorem startSprint_spec (store : Store) (sid : ObjId) :
    (((sprintFind store sid).all fun s => !(decide (s.status = .planned))) = true →
      startSprint store sid = (.error ⟨404, "Sprint not found or already started"⟩, store))
    ∧ (∀ s, sprintFind store sid = some s → s.status = .planned →
        (startSprint store sid).1 = .ok { s with status := .active } ∧
        sprintFind (startSprint store sid).2 sid = some { s with status := .active } ∧
        (startSprint store sid).2.issues = store.issues.map (fun i =>
          if s.issues.contains i.id then { i with status := .to_do } else i)) := by
  constructor
  · intro hfail
    cases hf : sprintFind store sid with
    | none => simp only [startSprint, hf]
    | some s =>
      rw [hf] at hfail
      have hnp : s.status ≠ .planned := by
        simp [Option.all] at hfail
        exact hfail
      simp only [startSprint, hf, if_neg hnp]
  · intro s hf hp
    refine ⟨?_, ?_, ?_⟩
    · simp only [startSprint, hf, if_pos hp]
    · simp only [startSprint, hf, if_pos hp]
      exact sprintFind_saveSprint store sid s _ hf rfl
    · simp only [startSprint, hf, if_pos hp]
      rfl

/-- A planned sprint listing issue 5 (currently `in_review`). -/
def c5Planned : SprintDoc :=
  { id := 2, projectId := 1, name := "S5", startDate := 0, endDate := 10,
    status := .planned, issues := [5], timeLogs := [], updatedAt := 0 }

/-- An already-active sprint. -/
def c5Active : SprintDoc :=
  { id := 3, projectId := 1, name := "S5b", startDate := 0, endDate := 10,
    status := .active, issues := [], timeLogs := [], updatedAt := 0 }

/-- Store for the `start-sprint` witness. -/
def c5Store : Store :=
  { sprints := [c5Planned, c5Active], issues := [⟨5, 1, .in_review, 7, none, 0, false⟩],
    projects := [⟨1, "P1", false⟩] }

/-- Witness for `startSprint_spec`: starting the already-active sprint 3
fails; starting the planned sprint 2 succeeds and forces issue 5 (which was
`in_review`) to `to_do`. -/
theorem startSprint_witness :
    startSprint c5Store 3 = (.error ⟨404, "Sprint not found or already started"⟩, c5Store)
    ∧ (startSprint c5Store 2).1 = .ok { c5Planned with status := .active }
    ∧ sprintFind (startSprint c5Store 2).2 2 = some { c5Planned with status := .active }
    ∧ (startSprint c5Store 2).2.issues = c5Store.issues.map (fun i =>
        if c5Planned.issues.contains i.id then { i with status := .to_do } else i) := by
  have h1 := (startSprint_spec c5Store 3).1 (by decide)
  have h2 := (startSprint_spec c5Store 2).2 c5Planned rfl rfl
  exact ⟨h1, h2.1, h2.2.1, h2.2.2⟩

/-- A sprint with a running log (started at t=100) for assignee 7 on issue 5. -/
def c4Sprint : SprintDoc :=
  { id := 1, projectId := 1, name := "S4", startDate := 0, endDate := 10,
    status := .active, issues := [5], timeLogs := [⟨7, 5, 100, none, 0⟩], updatedAt := 0 }

/-- Issue 5 as stored before the stop call. -/
def c4Issue : IssueDoc :=
  { id := 5, projectId := 1, status := .in_progress, assigneeId := 7,
    sprintId := some 1, timeSpent := 0, isDeleted := false }

/-- Store for the stop-time-log persistence check. -/
def c4Store : Store :=
  { sprints := [c4Sprint], issues := [c4Issue], projects := [⟨1, "P1", false⟩] }

/-- C4 (code bug).  Stopping assignee 7's running log at t=250 returns
`timeSpentInMs = 150` and closes the sprint log, but the stored issue
collection is unchanged: the handler's write goes to `issue.totalTimeSpent`,
a path `IssueSchema` does not declare, so the strict-mode `save()` persists
nothing — the issue's cumulative total is *not* increased, contradicting the
claim (the schema's accumulated-milliseconds path is `timeSpent`, which the
handler never updates). -/
theorem stopTimeLog_totalTimeSpent_not_persisted :
    (stopTimeLog c4Store 1 7 250).1 = .ok 150
    ∧ issueFind c4Store 5 = some c4Issue
    ∧ (stopTimeLog c4Store 1 7 250).2.issues = c4Store.issues
    ∧ sprintFind (stopTimeLog c4Store 1 7 250).2 1
        = some { c4Sprint with timeLogs := [⟨7, 5, 100, some 250, 150⟩] } :=
  ⟨rfl, rfl, rfl, rfl⟩

/-- C10.  When the running log found by `time-log/stop` references an issue
id that resolves to no stored issue, the stop still succeeds: it returns the
elapsed `timeSpentInMs`, closes the log on the sprint, and silently skips the
issue-total update (the issue collection is returned unchanged). -/
theorem stopTimeLog_missing_issue_spec (store : Store) (sid aid : ObjId) (now : Int)
    (s : SprintDoc) (log : TimeLog)
    (hf : sprintFind store sid = some s)
    (hl : s.timeLogs.find? (runningFor aid) = some log)
    (hmiss : issueFind store log.issueId = none) :
    (stopTimeLog store sid aid now).1 = .ok (now - log.startTime)
    ∧ (stopTimeLog store sid aid now).2.issues = store.issues
    ∧ sprintFind (stopTimeLog store sid aid now).2 sid
        = some { s with timeLogs := closeFirstRunning aid now s.timeLogs } := by
  have hm : mongooseIssueFind store log.issueId = none := by
    unfold mongooseIssueFind
    rw [hmiss]
    rfl
  refine ⟨?_, ?_, ?_⟩
  · simp only [stopTimeLog, hf, hl, hm]
  · simp only [stopTimeLog, hf, hl, hm]
    rfl
  · simp only [stopTimeLog, hf, hl, hm]
    exact sprintFind_saveSprint store sid s _ hf rfl

/-- A sprint whose running log references issue 999, which is not stored. -/
def c10Sprint : SprintDoc :=
  { id := 1, projectId := 1, name := "S10", startDate := 0, endDate := 10,
    status := .active, issues := [5], timeLogs := [⟨7, 999, 40, none, 0⟩], updatedAt := 0 }

/-- Store for the dangling-issue stop witness. -/
def c10Store : Store :=
  { sprints := [c10Sprint], issues := [⟨5, 1, .to_do, 7, some 1, 0, false⟩],
    projects := [⟨1, "P1", false⟩] }

/-- Witness for `stopTimeLog_missing_issue_spec` at the concrete store
`c10Store`. -/
theorem stopTimeLog_missing_issue_witness :
    (stopTimeLog c10Store 1 7 100).1 = .ok 60
    ∧ (stopTimeLog c10Store 1 7 100).2.issues = c10Store.issues := by
  have h := stopTimeLog_missing_issue_spec c10Store 1 7 100 c10Sprint ⟨7, 999, 40, none, 0⟩ rfl rfl rfl
  exact ⟨h.1, h.2.1⟩

/-- C6 (amended).  For an existing sprint and an existing live issue,
`add-to-sprint` fails with 409 when the issue is already listed in this
sprint's `issues`, fails with 409 when a *different* sprint with status
`active` lists it; otherwise it succeeds, appends the issue reference to
`sprint.issues` and sets the issue's status to `to_do` — but it leaves
`issue.sprintId` unchanged (the handler never writes that field, contrary to
the claim). -/
theorem addToSprint_spec (store : Store) (issueId sprintId : ObjId)
    (s : SprintDoc) (i : IssueDoc)
    (hf : sprintFind store sprintId = some s)
    (hi : issueFind store issueId = some i)
    (hlive : i.isDeleted = false) :
    (s.issues.contains i.id = true →
      addToSprint store issueId sprintId
        = (.error ⟨409, "This Issue already added to this sprint"⟩, store))
    ∧ (s.issues.contains i.id = false →
       (store.sprints.find? (fun t =>
          !(t.id == sprintId) && decide (t.status = .active) && t.issues.contains i.id)).isSome = true →
      addToSprint store issueId sprintId
        = (.error ⟨409, "Issue is already part of another active sprint"⟩, store))
    ∧ (s.issues.contains i.id = false →
       store.sprints.find? (fun t =>
          !(t.id == sprintId) && decide (t.status = .active) && t.issues.contains i.id) = none →
      (addToSprint store issueId sprintId).1 = .ok { s with issues := s.issues ++ [i.id] }
      ∧ sprintFind (addToSprint store issueId sprintId).2 sprintId
          = some { s with issues := s.issues ++ [i.id] }
      ∧ issueFind (addToSprint store issueId sprintId).2 issueId
          = some { i with status := .to_do }
      ∧ (issueFind (addToSprint store issueId sprintId).2 issueId).map (fun j => j.sprintId)
          = some i.sprintId) := by
  have hdel : ¬ (i.isDeleted = true) := by simp [hlive]
  refine ⟨?_, ?_, ?_⟩
  · intro hdup
    simp only [addToSprint, hf, hi, if_neg hdel, if_pos hdup]
  · intro hdup hother
    cases hfd : store.sprints.find? (fun t =>
        !(t.id == sprintId) && decide (t.status = .active) && t.issues.contains i.id) with
    | none => rw [hfd] at hother; simp at hother
    | some t =>
      simp only [addToSprint, hf, hi, if_neg hdel, hdup, Bool.false_eq_true, if_neg, not_false_iff, hfd]
  · intro hdup hother
    have hok : (addToSprint store issueId sprintId)
        = (.ok { s with issues := s.issues ++ [i.id] },
           saveIssue (saveSprint store { s with issues := s.issues ++ [i.id] })
             { i with status := .to_do }) := by
      simp only [addToSprint, hf, hi, if_neg hdel, hdup, Bool.false_eq_true, if_neg, not_false_iff, hother]
    rw [hok]
    refine ⟨rfl, ?_, ?_, ?_⟩
    · exact sprintFind_saveSprint store sprintId s _ hf rfl
    · exact issueFind_saveIssue (saveSprint store { s with issues := s.issues ++ [i.id] })
        issueId i { i with status := .to_do } hi rfl
    · rw [issueFind_saveIssue (saveSprint store { s with issues := s.issues ++ [i.id] })
        issueId i { i with status := .to_do } hi rfl]
      rfl

/-- Planned sprint 1 already listing issue 5. -/
def c6SprintA : SprintDoc :=
  { id := 1, projectId := 1, name := "A", startDate := 0, endDate := 10,
    status := .planned, issues := [5], timeLogs := [], updatedAt := 0 }

/-- Active sprint 2 listing issue 6. -/
def c6SprintB : SprintDoc :=
  { id := 2, projectId := 1, name := "B", startDate := 0, endDate := 10,
    status := .active, issues := [6], timeLogs := [], updatedAt := 0 }

/-- Planned, empty sprint 3 — the target of the add operations. -/
def c6SprintC : SprintDoc :=
  { id := 3, projectId := 1, name := "C", startDate := 0, endDate := 10,
    status := .planned, issues := [], timeLogs := [], updatedAt := 0 }

/-- Issue already in sprint 1. -/
def c6Issue5 : IssueDoc := ⟨5, 1, .to_do, 7, some 1, 0, false⟩

/-- Issue listed by the active sprint 2. -/
def c6Issue6 : IssueDoc := ⟨6, 1, .to_do, 7, some 2, 0, false⟩

/-- A free issue whose stored `sprintId` still points at sprint 2. -/
def c6Issue9 : IssueDoc := ⟨9, 1, .backlog, 7, some 2, 0, false⟩

/-- Store for the add-to-sprint theorems. -/
def c6Store : Store :=
  { sprints := [c6SprintA, c6SprintB, c6SprintC],
    issues := [c6Issue5, c6Issue6, c6Issue9],
    projects := [⟨1, "P1", false⟩] }

/-- Witness for `addToSprint_spec`: duplicate add is rejected, an
active-sprint conflict is rejected, and a free issue is added with status
forced to `to_do`. -/
theorem addToSprint_witness :
    addToSprint c6Store 5 1 = (.error ⟨409, "This Issue already added to this sprint"⟩, c6Store)
    ∧ addToSprint c6Store 6 3 = (.error ⟨409, "Issue is already part of another active sprint"⟩, c6Store)
    ∧ (addToSprint c6Store 9 3).1 = .ok { c6SprintC with issues := [9] }
    ∧ issueFind (addToSprint c6Store 9 3).2 9 = some { c6Issue9 with status := .to_do } := by
  have h1 := (addToSprint_spec c6Store 5 1 c6SprintA c6Issue5 rfl rfl rfl).1 rfl
  have h2 := (addToSprint_spec c6Store 6 3 c6SprintC c6Issue6 rfl rfl rfl).2.1 rfl rfl
  have h3 := (addToSprint_spec c6Store 9 3 c6SprintC c6Issue9 rfl rfl rfl).2.2 rfl rfl
  exact ⟨h1, h2, h3.1, h3.2.2.1⟩

/-- C6 counterexample: adding issue 9 to sprint 3 succeeds, yet the stored
issue's `sprintId` still reads `some 2` — the handler does not set
`issue.sprintId` to the target sprint, contrary to the claim. -/
theorem addToSprint_sprintId_counterexample :
    exceptOk (addToSprint c6Store 9 3).1 = true
    ∧ (issueFind (addToSprint c6Store 9 3).2 9).map (fun j => j.sprintId) = some (some 2)
    ∧ (issueFind (addToSprint c6Store 9 3).2 9).map (fun j => j.sprintId) ≠ some (some 3) := by
  refine ⟨rfl, rfl, by decide⟩

/-- C7 (amended).  With valid dates, sprint creation fails with 409
"Sprint name already exists in this project" when the name is already used in
the same project; but the uniqueness check is effectively *global*: when the
name is used by a sprint of any other project, creation fails with 409
"Sprint already exists" instead of succeeding.  Only a name unused anywhere
proceeds (given a live project) to create the sprint. -/
theorem createSprint_spec (store : Store) (pid : ObjId) (name : String)
    (sd ed : Int) (newId : ObjId) (now : Int)
    (hdates : validateDates sd ed = none) :
    ((store.sprints.find? (fun s => s.name == name && s.projectId == pid)).isSome = true →
      createSprint store pid name sd ed newId now
        = (.error ⟨409, "Sprint name already exists in this project"⟩, store))
    ∧ (store.sprints.find? (fun s => s.name == name && s.projectId == pid) = none →
       (store.sprints.find? (fun s => s.name == name)).isSome = true →
      createSprint store pid name sd ed newId now = (.error ⟨409, "Sprint already exists"⟩, store))
    ∧ (store.sprints.find? (fun s => s.name == name) = none →
       ∀ p, projectFind store pid = some p → p.isDeleted = false →
       createSprint store pid name sd ed newId now
         = (.ok ⟨newId, pid, name, sd, ed, .planned, [], [], now⟩,
            { store with sprints := store.sprints ++ [⟨newId, pid, name, sd, ed, .planned, [], [], now⟩] })) := by
  refine ⟨?_, ?_, ?_⟩
  · intro hdup
    cases hfd : store.sprints.find? (fun s => s.name == name && s.projectId == pid) with
    | none => rw [hfd] at hdup; simp at hdup
    | some t => simp only [createSprint, hdates, hfd]
  · intro hdup hname
    cases hfd : store.sprints.find? (fun s => s.name == name) with
    | none => rw [hfd] at hname; simp at hname
    | some t => simp only [createSprint, hdates, hdup, hfd]
  · intro hname p hp hlive
    have hdup : store.sprints.find? (fun s => s.name == name && s.projectId == pid) = none := by
      rw [List.find?_eq_none] at hname ⊢
      intro x hx hcontra
      exact hname x hx (Bool.and_eq_true_iff.mp hcontra).1
    have hdel : ¬ (p.isDeleted = true) := by simp [hlive]
    simp only [createSprint, hdates, hdup, hname, hp, if_neg hdel]

/-- A store with sprint "Alpha" in project 1, and two live projects. -/
def c7Store : Store :=
  { sprints := [⟨1, 1, "Alpha", 0, 10, .planned, [], [], 0⟩],
    issues := [],
    projects := [⟨1, "P1", false⟩, ⟨2, "P2", false⟩] }

/-- C7 counterexample: creating sprint "Alpha" under live project 2 with
valid dates fails with 409 "Sprint already exists", although "Alpha" is used
only by a sprint of project 1 — refuting the claim that the uniqueness check
is scoped to the project. -/
theorem createSprint_cross_project_counterexample :
    createSprint c7Store 2 "Alpha" 0 10 42 5 = (.error ⟨409, "Sprint already exists"⟩, c7Store)
    ∧ projectFind c7Store 2 = some ⟨2, "P2", false⟩
    ∧ c7Store.sprints.all (fun s => !(s.projectId == 2)) = true
    ∧ validateDates 0 10 = none :=
  ⟨rfl, rfl, rfl, rfl⟩

/-- Witness for `createSprint_spec`: same-project duplicate, cross-project
duplicate, and a fresh name. -/
theorem createSprint_witness :
    createSprint c7Store 1 "Alpha" 0 10 42 5
      = (.error ⟨409, "Sprint name already exists in this project"⟩, c7Store)
    ∧ createSprint c7Store 2 "Alpha" 0 10 42 5 = (.error ⟨409, "Sprint already exists"⟩, c7Store)
    ∧ createSprint c7Store 2 "Beta" 0 10 42 5
      = (.ok ⟨42, 2, "Beta", 0, 10, .planned, [], [], 5⟩,
         { c7Store with sprints := c7Store.sprints ++ [⟨42, 2, "Beta", 0, 10, .planned, [], [], 5⟩] }) := by
  have h1 := (createSprint_spec c7Store 1 "Alpha" 0 10 42 5 rfl).1 rfl
  have h2 := (createSprint_spec c7Store 2 "Alpha" 0 10 42 5 rfl).2.1 rfl rfl
  have h3 := (createSprint_spec c7Store 2 "Beta" 0 10 42 5 rfl).2.2 rfl ⟨2, "P2", false⟩ rfl rfl
  exact ⟨h1, h2, h3⟩

/-- C8 (amended).  For a sprint with at least one time log, the total-time
query returns `totalTimeMs` equal to the sum of `endTime - startTime` over
exactly the logs with both timestamps (running logs contribute 0), together
with the string `"H hours M minutes"` where `H = ⌊total / 3600000⌋` and
`M = ⌊(total mod 3600000) / 60000⌋`.  The query takes the store and returns
only a payload, so it mutates nothing and is idempotent by construction.
(A sprint with *no* time logs gets a 404 instead — see the counterexample.) -/
theorem totalTime_spec (store : Store) (sid : ObjId) (s : SprintDoc) (t h m : Int)
    (hf : sprintFind store sid = some s)
    (hne : s.timeLogs ≠ [])
    (ht : t = (s.timeLogs.filterMap (fun l => l.endTime.map (fun e => e - l.startTime))).sum)
    (hh : h = t.fdiv (1000 * 60 * 60))
    (hm : m = (t.tmod (1000 * 60 * 60)).fdiv (1000 * 60)) :
    totalTimeQuery store sid = .ok ⟨t, s!"{h} hours {m} minutes"⟩ := by
  have hlen : ¬ (s.timeLogs.length = 0) := fun hl => hne (List.length_eq_zero.mp hl)
  subst ht hh hm
  simp only [totalTimeQuery, hf, if_neg hlen]
  rw [totalTime_foldl_eq]
  rw [zero_add]

/-- A sprint with no time logs at all. -/
def c8Sprint : SprintDoc :=
  { id := 1, projectId := 1, name := "S8", startDate := 0, endDate := 10,
    status := .active, issues := [], timeLogs := [], updatedAt := 0 }

/-- Store for the empty-time-logs counterexample. -/
def c8Store : Store :=
  { sprints := [c8Sprint], issues := [], projects := [⟨1, "P1", false⟩] }

/-- C8 counterexample: for a sprint with no time logs the claimed sum is 0,
but the query returns the 404 "No time logs found for this sprint" error
rather than `totalTimeMs = 0` — the claim's universal form fails on
sprints with an empty `timeLogs` array. -/
theorem totalTime_empty_counterexample :
    sprintFind c8Store 1 = some c8Sprint
    ∧ c8Sprint.timeLogs = []
    ∧ totalTimeQuery c8Store 1 = .error ⟨404, "No time logs found for this sprint"⟩
    ∧ (c8Sprint.timeLogs.filterMap (fun l => l.endTime.map (fun e => e - l.startTime))).sum = 0
    ∧ totalTimeQuery c8Store 1 ≠ .ok ⟨0, "0 hours 0 minutes"⟩ :=
  ⟨rfl, rfl, rfl, rfl, fun hcontra => Except.noConfusion (rfl.symm.trans hcontra)⟩

/-- A sprint with one finished log of 2h03m and one running log. -/
def c8bSprint : SprintDoc :=
  { id := 1, projectId := 1, name := "S8b", startDate := 0, endDate := 10,
    status := .active, issues := [],
    timeLogs := [⟨7, 5, 0, some 7380000, 7380000⟩, ⟨8, 5, 50, none, 0⟩], updatedAt := 0 }

/-- Store for the total-time witness. -/
def c8bStore : Store :=
  { sprints := [c8bSprint], issues := [], projects := [⟨1, "P1", false⟩] }

/-- Witness for `totalTime_spec`: the finished log contributes 7,380,000 ms,
the running log contributes 0, and the rendered string is
"2 hours 3 minutes". -/
theorem totalTime_witness :
    totalTimeQuery c8bStore 1 = .ok ⟨7380000, "2 hours 3 minutes"⟩ := by
  have h := totalTime_spec c8bStore 1 c8bSprint 7380000 2 3 rfl (by decide) (by decide) (by decide) (by decide)
  exact h

/-- An active sprint whose `issues` list contains exactly issue 5. -/
def c9Sprint : SprintDoc :=
  { id := 1, projectId := 1, name := "S9", startDate := 0, endDate := 10,
    status := .active, issues := [5], timeLogs := [⟨7, 5, 0, some 100, 100⟩], updatedAt := 0 }

/-- Issue 5: linked to sprint 1 (listed in its `issues`, `sprintId = 1`) and
`done`. -/
def c9Issue : IssueDoc := ⟨5, 1, .done, 7, some 1, 100, false⟩

/-- Store for the velocity report check. -/
def c9Store : Store :=
  { sprints := [c9Sprint], issues := [c9Issue], projects := [⟨1, "P1", false⟩] }

/-- C9 (code bug).  The velocity callback queries
`Issue.find({ sprint: sprint._id })`, but `IssueSchema` declares no `sprint`
path (the link is `sprint.issues` / `issue.sprintId`), so the query matches
no stored document and the report yields `plannedWork = completedWork = 0`
even though exactly one linked issue exists and it is `done` — the claim's
counts of 1 and 1 are never produced.  (Independently, the handler maps an
async callback over the sprints and responds without awaiting, so the HTTP
payload serializes the pending promises as empty objects.) -/
theorem velocity_wrong_field :
    velocityData c9Store 1 = [⟨"S9", 0, 0⟩]
    ∧ (c9Store.issues.filter (fun i => c9Sprint.issues.contains i.id)).length = 1
    ∧ (c9Store.issues.filter
        (fun i => c9Sprint.issues.contains i.id && decide (i.status = .done))).length = 1
    ∧ (issueQueryField c9Issue "sprint") = none :=
  ⟨rfl, rfl, rfl, rfl⟩
